import Mathlib

/-!
Verification of the fertilizer-mixture core of `nano-fertilizers-mixer-utility`.

The embedding is over exact rationals: Python `float` and `decimal.Decimal`
values are idealized as `ℚ` (the inputs and catalog values exercised here are
short decimal fractions, where the idealization is faithful).

Two distinct rounding primitives appear in the source:
* `round(x, 2)` — the Python builtin, which rounds to the nearest multiple of
  `1/100` with ties going to the even multiple (modelled by `pyRound2`);
* `Decimal.quantize(Decimal('0.01'), rounding=ROUND_HALF_UP)` — which rounds
  to the nearest multiple of `1/100` with ties going away from zero
  (modelled by `halfUp2`).
-/

namespace NanoMixer

/-- Round a rational to the nearest integer, ties to the even integer.
This is the rounding of the Python builtin `round` on exact values. -/
def rhe (x : ℚ) : ℤ :=
  if x - ⌊x⌋ < 1/2 then ⌊x⌋
  else if 1/2 < x - ⌊x⌋ then ⌊x⌋ + 1
  else if ⌊x⌋ % 2 = 0 then ⌊x⌋ else ⌊x⌋ + 1

/-- Round a rational to the nearest integer, ties away from zero.
This is `decimal.ROUND_HALF_UP`. -/
def rhu (x : ℚ) : ℤ :=
  if 0 ≤ x then ⌊x + 1/2⌋ else -⌊-x + 1/2⌋

/-- Python `round(x, 2)` on exact values: nearest multiple of `1/100`,
ties to even. -/
def pyRound2 (x : ℚ) : ℚ := (rhe (100 * x) : ℚ) / 100

/-- `Decimal.quantize(Decimal('0.01'), rounding=ROUND_HALF_UP)`: nearest
multiple of `1/100`, ties away from zero. -/
def halfUp2 (x : ℚ) : ℚ := (rhu (100 * x) : ℚ) / 100

theorem rhe_bounds (x : ℚ) : x - 1/2 ≤ (rhe x : ℚ) ∧ (rhe x : ℚ) ≤ x + 1/2 := by
  unfold rhe
  have hfl : (⌊x⌋ : ℚ) ≤ x := Int.floor_le x
  have hfu : x < (⌊x⌋ : ℚ) + 1 := Int.lt_floor_add_one x
  constructor
  · split
    · linarith
    · split
      · push_cast; linarith
      · split <;> push_cast <;> linarith
  · split
    · linarith
    · split
      · push_cast; linarith
      · rename_i h1 h2
        have : x - (⌊x⌋ : ℚ) = 1/2 := le_antisymm (le_of_not_lt h2) (le_of_not_lt h1)
        split <;> push_cast <;> linarith

theorem pyRound2_bounds (x : ℚ) : x - 1/200 ≤ pyRound2 x ∧ pyRound2 x ≤ x + 1/200 := by
  obtain ⟨h1, h2⟩ := rhe_bounds (100 * x)
  unfold pyRound2
  constructor <;> [linarith; linarith]

/-- A rational is a whole number of cents (a multiple of `1/100`). -/
def IsCent (x : ℚ) : Prop := ∃ z : ℤ, x = (z : ℚ) / 100

theorem isCent_pyRound2 (x : ℚ) : IsCent (pyRound2 x) := ⟨rhe (100 * x), rfl⟩

theorem isCent_zero : IsCent 0 := ⟨0, by norm_num⟩

theorem isCent_add {x y : ℚ} (hx : IsCent x) (hy : IsCent y) : IsCent (x + y) := by
  obtain ⟨a, ha⟩ := hx
  obtain ⟨b, hb⟩ := hy
  exact ⟨a + b, by rw [ha, hb]; push_cast; ring⟩

theorem rhe_intCast (z : ℤ) : rhe (z : ℚ) = z := by
  unfold rhe
  rw [Int.floor_intCast]
  norm_num

theorem pyRound2_isCent {x : ℚ} (hx : IsCent x) : pyRound2 x = x := by
  obtain ⟨z, hz⟩ := hx
  subst hz
  unfold pyRound2
  have h : (100 : ℚ) * ((z : ℚ) / 100) = (z : ℚ) := by ring
  rw [h, rhe_intCast]

/-! ## Mixture optimizer (`src/core/mixture_calculation.py`)

The function `calculate_best_mixture` first coerces its four arguments
(raising `TypeError` on a non-numeric argument), guards against a
non-positive total mass, loads the catalog, formulates an integer linear
program, hands it to an external solver (CBC via pulp), and extracts the
result. The external solver is modelled by an `Option (List ℕ)` argument —
`some counts` when the solver reports an `Optimal` assignment of the integer
variables (listed in catalog order), `none` otherwise; theorems that depend
on what the solver can return carry an explicit soundness hypothesis stating
that a returned assignment satisfies the formulated constraints. -/

/-- A catalog record, as loaded at the start of `calculate_best_mixture`:
name, N/P/K percentages and price per gram. -/
structure Ingredient where
  name : String
  compN : ℚ
  compP : ℚ
  compK : ℚ
  price : ℚ

/-- Unit step for ingredient quantities (`step = 0.05` in the source). -/
def stepQ : ℚ := 5 / 100

/-- Left-hand side of a nutrient constraint, as the source formulates it:
`Σ var · composition[nutrient] · step · total_mass / 100` over the catalog.
The selector `sel` picks the nutrient percentage of an ingredient. -/
def nutrientSum (sel : Ingredient → ℚ) (totalMass : ℚ) : List (Ingredient × ℕ) → ℚ
  | [] => 0
  | (ing, c) :: rest => (c : ℚ) * sel ing * stepQ * totalMass / 100 + nutrientSum sel totalMass rest

/-- Feasibility of an integer assignment for the problem the source builds:
non-negative integer unit counts (here by the type `ℕ`), one per catalog
entry, and for each nutrient the pair of constraints
`target ≤ Σ contribution` and `Σ contribution ≤ target + 0.5`. -/
def feasible (n p k m : ℚ) (ings : List Ingredient) (counts : List ℕ) : Prop :=
  counts.length = ings.length ∧
  (n ≤ nutrientSum Ingredient.compN m (ings.zip counts) ∧
    nutrientSum Ingredient.compN m (ings.zip counts) ≤ n + 1/2) ∧
  (p ≤ nutrientSum Ingredient.compP m (ings.zip counts) ∧
    nutrientSum Ingredient.compP m (ings.zip counts) ≤ p + 1/2) ∧
  (k ≤ nutrientSum Ingredient.compK m (ings.zip counts) ∧
    nutrientSum Ingredient.compK m (ings.zip counts) ≤ k + 1/2)

/-- One entry of the reported `mixture` list. -/
structure MixEntry where
  name : String
  mass_in_grams : ℚ
  cost : ℚ

/-- Payload of a successful result. -/
structure SuccessPayload where
  mixture : List MixEntry
  total_cost : ℚ
  actualN : ℚ
  actualP : ℚ
  actualK : ℚ

/-- Result dictionary of `calculate_best_mixture`: either
`{'success': False, 'error': …}` or the success payload. -/
inductive CalcResult
  | failure (error : String)
  | success (payload : SuccessPayload)

/-- The fixed error message for a non-positive total mass. -/
def zeroMassError : String := "Ошибка: масса должна быть больше нуля."

/-- The fixed error message for an unsolvable composition. -/
def noCompositionError : String := "Ошибка: не удалось подобрать нужный состав."

/-- Result-list extraction loop of the source: for every ingredient whose
solved amount `varValue * step` is non-zero (equivalently `c ≠ 0`), report
`mass_in_grams = round(absolute_mass, 2)` and
`cost = round(price * absolute_mass, 2)` where
`absolute_mass = varValue * step * total_mass` is NOT rounded before the
cost multiplication. -/
def mixtureEntries (m : ℚ) : List (Ingredient × ℕ) → List MixEntry
  | [] => []
  | (ing, c) :: rest =>
      if c ≠ 0 then
        { name := ing.name,
          mass_in_grams := pyRound2 ((c : ℚ) * stepQ * m),
          cost := pyRound2 (ing.price * ((c : ℚ) * stepQ * m)) } :: mixtureEntries m rest
      else mixtureEntries m rest

/-- Accumulator `total_cost` of the extraction loop, before the final
`round(total_cost, 2)`: the sum of the included rounded per-product costs. -/
def totalCostRaw (m : ℚ) : List (Ingredient × ℕ) → ℚ
  | [] => 0
  | (ing, c) :: rest =>
      (if c ≠ 0 then pyRound2 (ing.price * ((c : ℚ) * stepQ * m)) else 0) + totalCostRaw m rest

/-- Accumulator `actual_composition[nutrient]` of the extraction loop, before
the final per-nutrient rounding: `Σ absolute_mass · composition / 100` over
the included ingredients. -/
def actualRaw (sel : Ingredient → ℚ) (m : ℚ) : List (Ingredient × ℕ) → ℚ
  | [] => 0
  | (ing, c) :: rest =>
      (if c ≠ 0 then ((c : ℚ) * stepQ * m) * sel ing / 100 else 0) + actualRaw sel m rest

/-- Numeric body of `calculate_best_mixture`, after argument coercion: the
zero-mass guard, then the solve (abstracted into `solved`), then result
extraction with the final roundings of the source. -/
def calculate_best_mixture (n p k m : ℚ) (ings : List Ingredient)
    (solved : Option (List ℕ)) : CalcResult :=
  if m ≤ 0 then .failure zeroMassError
  else
    match solved with
    | none => .failure noCompositionError
    | some counts =>
        .success
          { mixture := mixtureEntries m (ings.zip counts),
            total_cost := pyRound2 (totalCostRaw m (ings.zip counts)),
            actualN := pyRound2 (actualRaw Ingredient.compN m (ings.zip counts)),
            actualP := pyRound2 (actualRaw Ingredient.compP m (ings.zip counts)),
            actualK := pyRound2 (actualRaw Ingredient.compK m (ings.zip counts)) }

/-! ## Python dynamic values

The type-check loop at the top of `calculate_best_mixture` (and the
`Decimal`-only checks in `utils.py`) inspect the dynamic type of the
arguments, so those boundaries are embedded over a small universe of Python
values. `int`, `float` and `Decimal` payloads are idealized as `ℚ`. -/

/-- A Python runtime value, restricted to the types these functions inspect. -/
inductive PyVal
  | intVal (z : ℤ)
  | floatVal (q : ℚ)
  | decVal (q : ℚ)
  | strVal (s : String)
  | noneVal

/-- Python `type(value).__name__` for the modelled values. -/
def PyVal.typeName : PyVal → String
  | .intVal _ => "int"
  | .floatVal _ => "float"
  | .decVal _ => "Decimal"
  | .strVal _ => "str"
  | .noneVal => "NoneType"

/-- Whether a value is an `int`, `float` or `Decimal` instance. -/
def PyVal.isNumeric : PyVal → Bool
  | .intVal _ => true
  | .floatVal _ => true
  | .decVal _ => true
  | _ => false

/-- One iteration of the coercion loop of `calculate_best_mixture`: floats
pass through, ints and Decimals are converted with `float(value)`, anything
else raises `TypeError` with the offending argument name and type. -/
def coerceArg (name : String) (v : PyVal) : Except String ℚ :=
  match v with
  | .floatVal q => .ok q
  | .intVal z => .ok (z : ℚ)
  | .decVal q => .ok q
  | w => .error (name ++ " must be an int, float or Decimal instance, got " ++ w.typeName ++ ".")

/-- Python-boundary `calculate_best_mixture`: the coercion loop over the four
arguments in declaration order, then the numeric body. An `Except.error` is a
raised `TypeError`; a returned failure dictionary is `Except.ok (.failure _)`. -/
def calculate_best_mixture_py (nv pv kv mv : PyVal) (ings : List Ingredient)
    (solved : Option (List ℕ)) : Except String CalcResult := do
  let n ← coerceArg "nitrogen" nv
  let p ← coerceArg "phosphorus" pv
  let k ← coerceArg "potassium" kv
  let m ← coerceArg "total_mass" mv
  return calculate_best_mixture n p k m ings solved

/-! ## Nutrient mass resolver (`src/utils/utils.py`) -/

/-- The dictionary returned by `get_component_masses`. -/
structure NPKMasses where
  N : ℚ
  P : ℚ
  K : ℚ

/-- Check of the `Decimal`-only contract of `get_component_masses`. -/
def requireDec (name : String) (v : PyVal) : Except String ℚ :=
  match v with
  | .decVal q => .ok q
  | w => .error (name ++ " must be a Decimal instance, got " ++ w.typeName ++ ".")

/-- Embedding of `get_component_masses`: the `Decimal` type checks in source
order, the percentage range check, the positivity check on the total mass,
then `element_mass = percentage / 100 * total_mass` quantized to two decimals
with `ROUND_HALF_UP`. -/
def get_component_masses (npv ppv kpv tmv : PyVal) : Except String NPKMasses := do
  let np ← requireDec "n_percentage" npv
  let pp ← requireDec "p_percentage" ppv
  let kp ← requireDec "k_percentage" kpv
  let tm ← requireDec "total_mass" tmv
  if ¬(0 ≤ np ∧ np ≤ 100 ∧ 0 ≤ pp ∧ pp ≤ 100 ∧ 0 ≤ kp ∧ kp ≤ 100) then
    throw "Percentages must be between 0 and 100."
  else if tm ≤ 0 then
    throw "Total mass must be greater than zero."
  else
    return { N := halfUp2 (np / 100 * tm),
             P := halfUp2 (pp / 100 * tm),
             K := halfUp2 (kp / 100 * tm) }

/-- A Python dict with string keys, as an association list in insertion
order (Python dicts have unique keys; uniqueness is not needed below). -/
def Dict := List (String × PyVal)

/-- Python `d[k]` / `k in d` lookup. -/
def dget (d : Dict) (k : String) : Option PyVal :=
  match d with
  | [] => none
  | (k2, v) :: rest => if k2 = k then some v else dget rest k

/-- Python `d[k] = v` for a key already present: replaces the value in
place, keeping the position of the key. -/
def dset (d : Dict) (k : String) (v : PyVal) : Dict :=
  match d with
  | [] => []
  | (k2, w) :: rest => if k2 = k then (k, v) :: dset rest k v else (k2, w) :: dset rest k v

/-- Errors raised by `apply_nano_coefficients`, one per `raise` site. -/
inductive NanoError
  | missingKey (element : String)
  | nonDecimalValue (element : String)
  | negativeMass (element : String)
  | nonDecimalCoefficient (name : String)
  | coefficientOutOfRange (name : String)

/-- One iteration of the first validation loop of `apply_nano_coefficients`:
presence of the element key, `Decimal` type of its value, non-negativity. -/
def checkComponent (d : Dict) (element : String) : Except NanoError ℚ :=
  match dget d element with
  | none => .error (.missingKey element)
  | some (.decVal q) => if q < 0 then .error (.negativeMass element) else .ok q
  | some _ => .error (.nonDecimalValue element)

/-- One iteration of the second validation loop of
`apply_nano_coefficients`: `Decimal` type of the coefficient and the
`0 ≤ c ≤ 1` range check. -/
def checkCoefficient (name : String) (v : PyVal) : Except NanoError ℚ :=
  match v with
  | .decVal q => if ¬(0 ≤ q ∧ q ≤ 1) then .error (.coefficientOutOfRange name) else .ok q
  | _ => .error (.nonDecimalCoefficient name)

/-- Embedding of `apply_nano_coefficients`. The source mutates its argument
in place, so the embedding threads the dictionary: a raised error carries the
state of the dictionary at the raise site (all `raise` statements of the
source occur before the first mutation, which the error positions record
literally), and success returns the dictionary after the three assignments
`d[e] = (d[e] * coefficient).quantize(Decimal('0.01'), ROUND_HALF_UP)`. -/
def apply_nano_coefficients (d : Dict) (nc : PyVal := .decVal (5/10))
    (pc : PyVal := .decVal (2/10)) (kc : PyVal := .decVal (4/10)) :
    Except (NanoError × Dict) Dict := do
  let n ← (checkComponent d "N").mapError (·, d)
  let p ← (checkComponent d "P").mapError (·, d)
  let k ← (checkComponent d "K").mapError (·, d)
  let ncq ← (checkCoefficient "n_coefficient" nc).mapError (·, d)
  let pcq ← (checkCoefficient "p_coefficient" pc).mapError (·, d)
  let kcq ← (checkCoefficient "k_coefficient" kc).mapError (·, d)
  let d1 := dset d "N" (.decVal (halfUp2 (n * ncq)))
  let d2 := dset d1 "P" (.decVal (halfUp2 (p * pcq)))
  return dset d2 "K" (.decVal (halfUp2 (k * kcq)))

/-! ## Helper lemmas -/

theorem exceptBind_ok {α β ε : Type} (a : α) (f : α → Except ε β) :
    (Except.ok a >>= f) = f a := rfl

theorem exceptBind_err {α β ε : Type} (e : ε) (f : α → Except ε β) :
    ((Except.error e : Except ε α) >>= f) = .error e := rfl

theorem exceptMapError_ok {α ε ε2 : Type} (f : ε → ε2) (a : α) :
    Except.mapError f (.ok a : Except ε α) = .ok a := rfl

theorem exceptMapError_err {α ε ε2 : Type} (f : ε → ε2) (e : ε) :
    Except.mapError f (.error e : Except ε α) = .error (f e) := rfl

theorem exceptPure_eq {α ε : Type} (a : α) : (pure a : Except ε α) = .ok a := rfl

/-- The pre-rounding `actual_composition` accumulator equals the constraint
left-hand side: excluded ingredients contribute zero to both. -/
theorem actualRaw_eq_nutrientSum (sel : Ingredient → ℚ) (m : ℚ) :
    ∀ l : List (Ingredient × ℕ), actualRaw sel m l = nutrientSum sel m l := by
  intro l
  induction l with
  | nil => rfl
  | cons hd tl ih =>
    obtain ⟨ing, c⟩ := hd
    by_cases hc : c = 0
    · subst hc
      simp [actualRaw, nutrientSum, ih]
    · simp only [actualRaw, nutrientSum, if_pos hc, ih]
      ring_nf

/-- The pre-rounding `total_cost` accumulator is the sum of the reported
per-product costs. -/
theorem totalCostRaw_eq_sum (m : ℚ) :
    ∀ l : List (Ingredient × ℕ),
      totalCostRaw m l = ((mixtureEntries m l).map MixEntry.cost).sum := by
  intro l
  induction l with
  | nil => rfl
  | cons hd tl ih =>
    obtain ⟨ing, c⟩ := hd
    by_cases hc : c = 0
    · subst hc
      simp [totalCostRaw, mixtureEntries, ih]
    · simp [totalCostRaw, mixtureEntries, if_pos hc, ih]

/-- The pre-rounding `total_cost` accumulator is a whole number of cents. -/
theorem isCent_totalCostRaw (m : ℚ) :
    ∀ l : List (Ingredient × ℕ), IsCent (totalCostRaw m l) := by
  intro l
  induction l with
  | nil => exact isCent_zero
  | cons hd tl ih =>
    obtain ⟨ing, c⟩ := hd
    by_cases hc : c = 0
    · subst hc
      simpa [totalCostRaw] using ih
    · simp only [totalCostRaw, if_pos hc]
      exact isCent_add (isCent_pyRound2 _) ih

/-- Every reported mixture entry comes from a catalog pair with a non-zero
solved count, and its mass and cost are the roundings the source computes
from the unrounded absolute mass. -/
theorem mixtureEntries_mem (m : ℚ) :
    ∀ (l : List (Ingredient × ℕ)) (e : MixEntry), e ∈ mixtureEntries m l →
      ∃ pr, pr ∈ l ∧ pr.2 ≠ 0 ∧
        e.name = pr.1.name ∧
        e.mass_in_grams = pyRound2 ((pr.2 : ℚ) * stepQ * m) ∧
        e.cost = pyRound2 (pr.1.price * ((pr.2 : ℚ) * stepQ * m)) := by
  intro l
  induction l with
  | nil => intro e he; simp [mixtureEntries] at he
  | cons hd tl ih =>
    obtain ⟨ing, c⟩ := hd
    intro e he
    by_cases hc : c = 0
    · subst hc
      simp only [mixtureEntries, ne_eq, not_true_eq_false, if_neg, ite_false,
        not_not] at he
      obtain ⟨pr, hmem, h⟩ := ih e (by simpa using he)
      exact ⟨pr, List.mem_cons_of_mem _ hmem, h⟩
    · simp only [mixtureEntries, if_pos hc, List.mem_cons] at he
      rcases he with he | he
      · exact ⟨(ing, c), List.mem_cons_self _ _, hc, by simp [he], by simp [he], by simp [he]⟩
      · obtain ⟨pr, hmem, h⟩ := ih e he
        exact ⟨pr, List.mem_cons_of_mem _ hmem, h⟩

/-- When the single catalog ingredient has a zero percentage for a nutrient,
the constraint left-hand side for that nutrient is zero whatever the counts. -/
theorem nutrientSum_single_zero (sel : Ingredient → ℚ) (m : ℚ) (ing : Ingredient)
    (hsel : sel ing = 0) (cs : List ℕ) : nutrientSum sel m ([ing].zip cs) = 0 := by
  cases cs with
  | nil => rfl
  | cons c rest => simp [nutrientSum, hsel]

/-! ## Claim theorems -/

/-- C4: For every totalMass ≤ 0, arbitrary numeric targets, arbitrary catalog
contents and arbitrary solver outcome, `calculate_best_mixture` returns the
failure result with the fixed zero-mass error message. -/
theorem C4_zero_mass_guard (n p k m : ℚ) (ings : List Ingredient)
    (solved : Option (List ℕ)) (hm : m ≤ 0) :
    calculate_best_mixture n p k m ings solved = .failure zeroMassError := by
  simp [calculate_best_mixture, hm]

theorem C4_zero_mass_guard_witness :
    calculate_best_mixture 10 10 10 0 [] none = .failure zeroMassError :=
  C4_zero_mass_guard 10 10 10 0 [] none (by norm_num)

/-- A numeric argument always coerces. -/
theorem coerceArg_ok {v : PyVal} (name : String) (h : v.isNumeric = true) :
    ∃ q : ℚ, coerceArg name v = .ok q := by
  cases v <;> simp_all [PyVal.isNumeric, coerceArg]

/-- A non-numeric argument always raises `TypeError`. -/
theorem coerceArg_err {v : PyVal} (name : String) (h : v.isNumeric = false) :
    ∃ msg : String, coerceArg name v = .error msg := by
  cases v <;> simp_all [PyVal.isNumeric, coerceArg]

/-- C5: If any of the four arguments of `calculate_best_mixture` is not an
int, float or Decimal instance, the call raises a `TypeError` instead of
returning a failure result. -/
theorem C5_type_contract (nv pv kv mv : PyVal) (ings : List Ingredient)
    (solved : Option (List ℕ))
    (h : nv.isNumeric = false ∨ pv.isNumeric = false ∨ kv.isNumeric = false ∨
      mv.isNumeric = false) :
    ∃ msg : String, calculate_best_mixture_py nv pv kv mv ings solved = .error msg := by
  unfold calculate_best_mixture_py
  by_cases h1 : nv.isNumeric
  · obtain ⟨q1, hq1⟩ := coerceArg_ok "nitrogen" h1
    rw [hq1, exceptBind_ok]
    by_cases h2 : pv.isNumeric
    · obtain ⟨q2, hq2⟩ := coerceArg_ok "phosphorus" h2
      rw [hq2, exceptBind_ok]
      by_cases h3 : kv.isNumeric
      · obtain ⟨q3, hq3⟩ := coerceArg_ok "potassium" h3
        rw [hq3, exceptBind_ok]
        by_cases h4 : mv.isNumeric
        · rcases h with h | h | h | h <;> simp_all
        · obtain ⟨msg, hmsg⟩ := coerceArg_err "total_mass" (by simpa using h4)
          exact ⟨msg, by rw [hmsg, exceptBind_err]⟩
      · obtain ⟨msg, hmsg⟩ := coerceArg_err "potassium" (by simpa using h3)
        exact ⟨msg, by rw [hmsg, exceptBind_err]⟩
    · obtain ⟨msg, hmsg⟩ := coerceArg_err "phosphorus" (by simpa using h2)
      exact ⟨msg, by rw [hmsg, exceptBind_err]⟩
  · obtain ⟨msg, hmsg⟩ := coerceArg_err "nitrogen" (by simpa using h1)
    exact ⟨msg, by rw [hmsg, exceptBind_err]⟩

theorem C5_type_contract_witness :
    ∃ msg : String,
      calculate_best_mixture_py (.strVal "10") (.intVal 10) (.intVal 10) (.intVal 30)
        [] none = .error msg :=
  C5_type_contract (.strVal "10") (.intVal 10) (.intVal 10) (.intVal 30) [] none
    (Or.inl rfl)

/-- C8: With a catalog whose only product has an all-zero N/P/K composition,
a strictly positive target for at least one nutrient and a positive total
mass, no solver assignment can satisfy the constraints, so the call returns
the fixed no-matching-composition failure. -/
theorem C8_infeasible_zero_catalog (n p k m : ℚ) (nm : String) (price : ℚ)
    (solved : Option (List ℕ)) (hm : 0 < m) (hpos : 0 < n ∨ 0 < p ∨ 0 < k)
    (hsound : ∀ cs, solved = some cs → feasible n p k m [⟨nm, 0, 0, 0, price⟩] cs) :
    calculate_best_mixture n p k m [⟨nm, 0, 0, 0, price⟩] solved =
      .failure noCompositionError := by
  have hnone : solved = none := by
    cases hsolved : solved with
    | none => rfl
    | some cs =>
      exfalso
      have hf := hsound cs hsolved
      obtain ⟨-, hN, hP, hK⟩ := hf
      rcases hpos with hpos | hpos | hpos
      · have h0 : nutrientSum Ingredient.compN m ([(⟨nm, 0, 0, 0, price⟩ : Ingredient)].zip cs) = 0 :=
          nutrientSum_single_zero _ m _ rfl cs
        rw [h0] at hN
        linarith [hN.1]
      · have h0 : nutrientSum Ingredient.compP m ([(⟨nm, 0, 0, 0, price⟩ : Ingredient)].zip cs) = 0 :=
          nutrientSum_single_zero _ m _ rfl cs
        rw [h0] at hP
        linarith [hP.1]
      · have h0 : nutrientSum Ingredient.compK m ([(⟨nm, 0, 0, 0, price⟩ : Ingredient)].zip cs) = 0 :=
          nutrientSum_single_zero _ m _ rfl cs
        rw [h0] at hK
        linarith [hK.1]
  rw [hnone]
  simp [calculate_best_mixture, not_le.mpr hm]

theorem C8_infeasible_zero_catalog_witness :
    calculate_best_mixture 10 10 10 30 [⟨"FertZero", 0, 0, 0, 5/100⟩] none =
      .failure noCompositionError :=
  C8_infeasible_zero_catalog 10 10 10 30 "FertZero" (5/100) none (by norm_num)
    (Or.inl (by norm_num)) (fun cs h => nomatch h)

/-- C1 (amended): On a successful call backed by a constraint-satisfying
solver assignment, the unrounded achieved composition of each nutrient lies
in `[target, target + 0.5]`; the reported value is its rounding to two
decimals, hence lies in `[target - 0.005, target + 0.5 + 0.005]`. -/
theorem C1_amended (n p k m : ℚ) (ings : List Ingredient) (solved : Option (List ℕ))
    (pay : SuccessPayload)
    (hsound : ∀ cs, solved = some cs → feasible n p k m ings cs)
    (hres : calculate_best_mixture n p k m ings solved = .success pay) :
    (n - 1/200 ≤ pay.actualN ∧ pay.actualN ≤ n + 1/2 + 1/200) ∧
    (p - 1/200 ≤ pay.actualP ∧ pay.actualP ≤ p + 1/2 + 1/200) ∧
    (k - 1/200 ≤ pay.actualK ∧ pay.actualK ≤ k + 1/2 + 1/200) := by
  unfold calculate_best_mixture at hres
  by_cases hm : m ≤ 0
  · rw [if_pos hm] at hres
    exact nomatch hres
  · rw [if_neg hm] at hres
    cases hsolved : solved with
    | none =>
      rw [hsolved] at hres
      exact nomatch hres
    | some cs =>
      rw [hsolved] at hres
      injection hres with hpl
      subst hpl
      obtain ⟨-, hN, hP, hK⟩ := hsound cs hsolved
      dsimp only
      rw [actualRaw_eq_nutrientSum Ingredient.compN, actualRaw_eq_nutrientSum Ingredient.compP,
        actualRaw_eq_nutrientSum Ingredient.compK]
      have bN := pyRound2_bounds (nutrientSum Ingredient.compN m (ings.zip cs))
      have bP := pyRound2_bounds (nutrientSum Ingredient.compP m (ings.zip cs))
      have bK := pyRound2_bounds (nutrientSum Ingredient.compK m (ings.zip cs))
      exact ⟨⟨by linarith [hN.1, bN.1], by linarith [hN.2, bN.2]⟩,
        ⟨by linarith [hP.1, bP.1], by linarith [hP.2, bP.2]⟩,
        ⟨by linarith [hK.1, bK.1], by linarith [hK.2, bK.2]⟩⟩

theorem C1_amended_witness :
    ((1 : ℚ) - 1/200 ≤ (⟨[⟨"B", 1, 2⟩], 2, 1, 1, 1⟩ : SuccessPayload).actualN ∧
      (⟨[⟨"B", 1, 2⟩], 2, 1, 1, 1⟩ : SuccessPayload).actualN ≤ 1 + 1/2 + 1/200) ∧
    ((1 : ℚ) - 1/200 ≤ (⟨[⟨"B", 1, 2⟩], 2, 1, 1, 1⟩ : SuccessPayload).actualP ∧
      (⟨[⟨"B", 1, 2⟩], 2, 1, 1, 1⟩ : SuccessPayload).actualP ≤ 1 + 1/2 + 1/200) ∧
    ((1 : ℚ) - 1/200 ≤ (⟨[⟨"B", 1, 2⟩], 2, 1, 1, 1⟩ : SuccessPayload).actualK ∧
      (⟨[⟨"B", 1, 2⟩], 2, 1, 1, 1⟩ : SuccessPayload).actualK ≤ 1 + 1/2 + 1/200) :=
  C1_amended 1 1 1 20 [⟨"B", 100, 100, 100, 2⟩] (some [1]) ⟨[⟨"B", 1, 2⟩], 2, 1, 1, 1⟩
    (fun cs h => by
      cases h
      norm_num [feasible, nutrientSum, stepQ])
    (by norm_num [calculate_best_mixture, mixtureEntries, totalCostRaw, actualRaw,
      stepQ, pyRound2, rhe])

/-- C1 (counterexample): On target N = 1.004 g with total mass 20.08 g and a
single 100 percent nitrogen product, the unit count 1 satisfies the solver
constraints (achieved N = 1.004 exactly), yet the reported actualComposition
for N is round(1.004, 2) = 1.00 < 1.004, under-reporting the target. -/
theorem C1_counterexample :
    feasible (1004/1000) 0 0 (2008/100) [⟨"A", 100, 0, 0, 1⟩] [1] ∧
    calculate_best_mixture (1004/1000) 0 0 (2008/100) [⟨"A", 100, 0, 0, 1⟩]
      (some [1]) = .success ⟨[⟨"A", 1, 1⟩], 1, 1, 0, 0⟩ ∧
    (1 : ℚ) < 1004/1000 := by
  refine ⟨?_, ?_, by norm_num⟩
  · norm_num [feasible, nutrientSum, stepQ]
  · norm_num [calculate_best_mixture, mixtureEntries, totalCostRaw, actualRaw,
      stepQ, pyRound2, rhe]

/-- C2 (amended): Every reported mixture entry is produced from a catalog
pair with a non-zero solved count; its cost is
`round(pricePerGram × absoluteMass, 2)` computed from the UNROUNDED absolute
mass `unitCount × unitStep × totalMass`, while massInGrams is the rounding
of that same unrounded mass — the cost is not computed from the rounded
massInGrams value. -/
theorem C2_amended (m : ℚ) (ings : List Ingredient) (counts : List ℕ) (e : MixEntry)
    (he : e ∈ mixtureEntries m (ings.zip counts)) :
    ∃ pr, pr ∈ ings.zip counts ∧ pr.2 ≠ 0 ∧ e.name = pr.1.name ∧
      e.mass_in_grams = pyRound2 ((pr.2 : ℚ) * stepQ * m) ∧
      e.cost = pyRound2 (pr.1.price * ((pr.2 : ℚ) * stepQ * m)) :=
  mixtureEntries_mem m (ings.zip counts) e he

theorem C2_amended_witness :
    ∃ pr : Ingredient × ℕ,
      pr ∈ ([(⟨"A", 100, 0, 0, 10⟩ : Ingredient)].zip [1]) ∧ pr.2 ≠ 0 ∧
      (⟨"A", 5, 5005/100⟩ : MixEntry).name = pr.1.name ∧
      (⟨"A", 5, 5005/100⟩ : MixEntry).mass_in_grams =
        pyRound2 ((pr.2 : ℚ) * stepQ * (1001/10)) ∧
      (⟨"A", 5, 5005/100⟩ : MixEntry).cost =
        pyRound2 (pr.1.price * ((pr.2 : ℚ) * stepQ * (1001/10))) :=
  C2_amended (1001/10) [⟨"A", 100, 0, 0, 10⟩] [1] ⟨"A", 5, 5005/100⟩
    (by norm_num [mixtureEntries, stepQ, pyRound2, rhe])

/-- C2 (counterexample): With one product priced 10 per gram, unit count 1
and total mass 100.1 g, the absolute mass is 5.005 g; the result reports
massInGrams = round(5.005, 2) = 5.00 and cost = round(10 × 5.005, 2) = 50.05,
whereas the claimed formula round(massInGrams × price, 2) = round(50.00, 2)
gives 50.00 ≠ 50.05: the cost is computed from the unrounded mass. -/
theorem C2_counterexample :
    feasible (5005/1000) 0 0 (1001/10) [⟨"A", 100, 0, 0, 10⟩] [1] ∧
    calculate_best_mixture (5005/1000) 0 0 (1001/10) [⟨"A", 100, 0, 0, 10⟩]
      (some [1]) = .success ⟨[⟨"A", 5, 5005/100⟩], 5005/100, 5, 0, 0⟩ ∧
    pyRound2 ((5 : ℚ) * 10) ≠ 5005/100 := by
  refine ⟨?_, ?_, ?_⟩
  · norm_num [feasible, nutrientSum, stepQ]
  · norm_num [calculate_best_mixture, mixtureEntries, totalCostRaw, actualRaw,
      stepQ, pyRound2, rhe]
  · norm_num [pyRound2, rhe]

/-- The resolver returns exactly the half-up roundings of
`percentage / 100 × totalMass` when all checks pass. -/
theorem get_component_masses_ok (np pp kp tm : ℚ)
    (h1 : 0 ≤ np) (h2 : np ≤ 100) (h3 : 0 ≤ pp) (h4 : pp ≤ 100)
    (h5 : 0 ≤ kp) (h6 : kp ≤ 100) (h7 : 0 < tm) :
    get_component_masses (.decVal np) (.decVal pp) (.decVal kp) (.decVal tm) =
      .ok ⟨halfUp2 (np / 100 * tm), halfUp2 (pp / 100 * tm), halfUp2 (kp / 100 * tm)⟩ := by
  have hc1 : ¬¬(0 ≤ np ∧ np ≤ 100 ∧ 0 ≤ pp ∧ pp ≤ 100 ∧ 0 ≤ kp ∧ kp ≤ 100) :=
    not_not_intro ⟨h1, h2, h3, h4, h5, h6⟩
  have hc2 : ¬(tm ≤ 0) := not_le.mpr h7
  simp only [get_component_masses, requireDec, exceptBind_ok, if_neg hc1, if_neg hc2]
  rfl

/-- Half-up rounding sends the exact middle point between two cent multiples
up (for non-negative values). -/
theorem halfUp2_tie (z : ℤ) (hz : 0 ≤ z) :
    halfUp2 ((z : ℚ)/100 + 1/200) = ((z : ℚ) + 1)/100 := by
  unfold halfUp2 rhu
  have he : (100 : ℚ) * ((z : ℚ)/100 + 1/200) = (z : ℚ) + 1/2 := by ring
  rw [he, if_pos (by positivity)]
  have he2 : (z : ℚ) + 1/2 + 1/2 = ((z + 1 : ℤ) : ℚ) := by push_cast; ring
  rw [he2, Int.floor_intCast]
  norm_num

/-- Python builtin rounding sends the exact middle point between two cent
multiples to the even neighbour: when the lower neighbour is even it rounds
DOWN, unlike half-up. -/
theorem pyRound2_tie_even (z : ℤ) (hz : z % 2 = 0) :
    pyRound2 ((z : ℚ)/100 + 1/200) = (z : ℚ)/100 := by
  unfold pyRound2 rhe
  have he : (100 : ℚ) * ((z : ℚ)/100 + 1/200) = (z : ℚ) + 1/2 := by ring
  rw [he]
  have hfl : ⌊(z : ℚ) + 1/2⌋ = z := by
    rw [add_comm, Int.floor_add_int]
    norm_num
  rw [hfl]
  have hr : (z : ℚ) + 1/2 - (z : ℤ) = 1/2 := by ring
  rw [hr, if_neg (by norm_num), if_neg (by norm_num), if_pos hz]

/-- C3 (amended): The resolver (`get_component_masses`; the discount
transform behaves alike) quantizes with ROUND_HALF_UP, which sends
third-decimal-5 ties upward; but the per-product mass and cost inside
`calculate_best_mixture` are rounded with the host builtin round, which
sends such ties to the even cent — so not every value produced by the core
is rounded half-up. -/
theorem C3_amended :
    (∀ np pp kp tm : ℚ, 0 ≤ np → np ≤ 100 → 0 ≤ pp → pp ≤ 100 →
      0 ≤ kp → kp ≤ 100 → 0 < tm →
      get_component_masses (.decVal np) (.decVal pp) (.decVal kp) (.decVal tm) =
        .ok ⟨halfUp2 (np / 100 * tm), halfUp2 (pp / 100 * tm),
          halfUp2 (kp / 100 * tm)⟩) ∧
    (∀ (m : ℚ) (l : List (Ingredient × ℕ)) (e : MixEntry), e ∈ mixtureEntries m l →
      ∃ pr, pr ∈ l ∧ pr.2 ≠ 0 ∧ e.name = pr.1.name ∧
        e.mass_in_grams = pyRound2 ((pr.2 : ℚ) * stepQ * m) ∧
        e.cost = pyRound2 (pr.1.price * ((pr.2 : ℚ) * stepQ * m))) ∧
    (∀ z : ℤ, 0 ≤ z → halfUp2 ((z : ℚ)/100 + 1/200) = ((z : ℚ) + 1)/100) ∧
    (∀ z : ℤ, z % 2 = 0 → pyRound2 ((z : ℚ)/100 + 1/200) = (z : ℚ)/100) :=
  ⟨fun np pp kp tm h1 h2 h3 h4 h5 h6 h7 =>
      get_component_masses_ok np pp kp tm h1 h2 h3 h4 h5 h6 h7,
    fun m l => mixtureEntries_mem m l, halfUp2_tie, pyRound2_tie_even⟩

theorem C3_amended_witness :
    get_component_masses (.decVal 10) (.decVal 20) (.decVal 30) (.decVal 100) =
      .ok ⟨halfUp2 (10 / 100 * 100), halfUp2 (20 / 100 * 100),
        halfUp2 (30 / 100 * 100)⟩ ∧
    (∃ pr : Ingredient × ℕ,
      pr ∈ ([(⟨"A", 100, 0, 0, 1⟩ : Ingredient)].zip [1]) ∧ pr.2 ≠ 0 ∧
      (⟨"A", 12/100, 12/100⟩ : MixEntry).name = pr.1.name ∧
      (⟨"A", 12/100, 12/100⟩ : MixEntry).mass_in_grams =
        pyRound2 ((pr.2 : ℚ) * stepQ * (5/2)) ∧
      (⟨"A", 12/100, 12/100⟩ : MixEntry).cost =
        pyRound2 (pr.1.price * ((pr.2 : ℚ) * stepQ * (5/2)))) ∧
    halfUp2 ((0 : ℚ)/100 + 1/200) = ((0 : ℚ) + 1)/100 ∧
    pyRound2 ((0 : ℚ)/100 + 1/200) = (0 : ℚ)/100 :=
  ⟨C3_amended.1 10 20 30 100 (by norm_num) (by norm_num) (by norm_num)
      (by norm_num) (by norm_num) (by norm_num) (by norm_num),
    C3_amended.2.1 (5/2) ([(⟨"A", 100, 0, 0, 1⟩ : Ingredient)].zip [1])
      ⟨"A", 12/100, 12/100⟩ (by norm_num [mixtureEntries, stepQ, pyRound2, rhe]),
    C3_amended.2.2.1 0 (by norm_num),
    C3_amended.2.2.2 0 (by norm_num)⟩

/-- C3 (counterexample): With one product priced 1 per gram, unit count 1
and total mass 2.5 g, the absolute mass is 0.125 g; the reported mass and
cost are round(0.125, 2) = 0.12, not the half-up value 0.13 — the core does
not round the third-decimal-5 case upward. -/
theorem C3_counterexample :
    feasible (1/8) 0 0 (5/2) [⟨"A", 100, 0, 0, 1⟩] [1] ∧
    calculate_best_mixture (1/8) 0 0 (5/2) [⟨"A", 100, 0, 0, 1⟩] (some [1]) =
      .success ⟨[⟨"A", 12/100, 12/100⟩], 12/100, 12/100, 0, 0⟩ ∧
    halfUp2 ((1 : ℚ)/8) = 13/100 ∧ (12 : ℚ)/100 ≠ 13/100 := by
  refine ⟨?_, ?_, ?_, by norm_num⟩
  · norm_num [feasible, nutrientSum, stepQ]
  · norm_num [calculate_best_mixture, mixtureEntries, totalCostRaw, actualRaw,
      stepQ, pyRound2, rhe]
  · norm_num [halfUp2, rhu]

/-- C6: On every successful result, the reported totalCost equals the sum of
the reported per-product costs (and, the costs being whole cents, also its
rounding to 2 decimals). -/
theorem C6_total_cost (n p k m : ℚ) (ings : List Ingredient)
    (solved : Option (List ℕ)) (pay : SuccessPayload)
    (hres : calculate_best_mixture n p k m ings solved = .success pay) :
    pay.total_cost = (pay.mixture.map MixEntry.cost).sum ∧
    pay.total_cost = pyRound2 ((pay.mixture.map MixEntry.cost).sum) := by
  unfold calculate_best_mixture at hres
  by_cases hm : m ≤ 0
  · rw [if_pos hm] at hres
    exact nomatch hres
  · rw [if_neg hm] at hres
    cases hsolved : solved with
    | none =>
      rw [hsolved] at hres
      exact nomatch hres
    | some cs =>
      rw [hsolved] at hres
      injection hres with hpl
      subst hpl
      dsimp only
      rw [← totalCostRaw_eq_sum, pyRound2_isCent (isCent_totalCostRaw m _)]
      exact ⟨rfl, rfl⟩

theorem C6_total_cost_witness :
    (⟨[⟨"B", 1, 2⟩], 2, 1, 1, 1⟩ : SuccessPayload).total_cost =
      ((⟨[⟨"B", 1, 2⟩], 2, 1, 1, 1⟩ : SuccessPayload).mixture.map MixEntry.cost).sum ∧
    (⟨[⟨"B", 1, 2⟩], 2, 1, 1, 1⟩ : SuccessPayload).total_cost =
      pyRound2 (((⟨[⟨"B", 1, 2⟩], 2, 1, 1, 1⟩ : SuccessPayload).mixture.map
        MixEntry.cost).sum) :=
  C6_total_cost 1 1 1 20 [⟨"B", 100, 100, 100, 2⟩] (some [1])
    ⟨[⟨"B", 1, 2⟩], 2, 1, 1, 1⟩
    (by norm_num [calculate_best_mixture, mixtureEntries, totalCostRaw, actualRaw,
      stepQ, pyRound2, rhe])

/-- C7: The resolver applied to percentages (33.33, 33.33, 33.34) and total
mass 300.00 returns exactly {N: 99.99, P: 99.99, K: 100.02}; in general each
returned mass is the half-up two-decimal rounding of
`percentage / 100 × totalMass`. -/
theorem C7_component_masses :
    get_component_masses (.decVal (3333/100)) (.decVal (3333/100)) (.decVal (3334/100))
        (.decVal 300) = .ok ⟨9999/100, 9999/100, 10002/100⟩ ∧
    ∀ np pp kp tm : ℚ, 0 ≤ np → np ≤ 100 → 0 ≤ pp → pp ≤ 100 → 0 ≤ kp → kp ≤ 100 →
      0 < tm →
      get_component_masses (.decVal np) (.decVal pp) (.decVal kp) (.decVal tm) =
        .ok ⟨halfUp2 (np / 100 * tm), halfUp2 (pp / 100 * tm), halfUp2 (kp / 100 * tm)⟩ := by
  constructor
  · rw [get_component_masses_ok (3333/100) (3333/100) (3334/100) 300 (by norm_num)
      (by norm_num) (by norm_num) (by norm_num) (by norm_num) (by norm_num) (by norm_num)]
    norm_num [halfUp2, rhu]
  · exact fun np pp kp tm h1 h2 h3 h4 h5 h6 h7 =>
      get_component_masses_ok np pp kp tm h1 h2 h3 h4 h5 h6 h7

theorem C7_component_masses_witness :
    get_component_masses (.decVal 25) (.decVal 35) (.decVal 40) (.decVal 200) =
      .ok ⟨halfUp2 (25 / 100 * 200), halfUp2 (35 / 100 * 200), halfUp2 (40 / 100 * 200)⟩ :=
  C7_component_masses.2 25 35 40 200 (by norm_num) (by norm_num) (by norm_num)
    (by norm_num) (by norm_num) (by norm_num) (by norm_num)

/-- C9: All validation of `apply_nano_coefficients` happens before any
mutation: a raised error always carries the input dictionary unchanged, and
a successful return implies every one of the six checks passed. -/
theorem C9_validation_before_mutation (d : Dict) (nc pc kc : PyVal) :
    (∀ (e : NanoError) (d2 : Dict),
      apply_nano_coefficients d nc pc kc = .error (e, d2) → d2 = d) ∧
    (∀ d3 : Dict, apply_nano_coefficients d nc pc kc = .ok d3 →
      (∃ q, checkComponent d "N" = .ok q) ∧ (∃ q, checkComponent d "P" = .ok q) ∧
      (∃ q, checkComponent d "K" = .ok q) ∧
      (∃ q, checkCoefficient "n_coefficient" nc = .ok q) ∧
      (∃ q, checkCoefficient "p_coefficient" pc = .ok q) ∧
      (∃ q, checkCoefficient "k_coefficient" kc = .ok q)) := by
  unfold apply_nano_coefficients
  cases h1 : checkComponent d "N" with
  | error e1 =>
    refine ⟨fun e d2 h => ?_, fun d3 h => ?_⟩ <;>
      simp only [exceptMapError_err, exceptBind_err] at h
    · rw [Except.error.injEq, Prod.mk.injEq] at h
      exact h.2.symm
    · exact nomatch h
  | ok q1 =>
    rw [exceptMapError_ok, exceptBind_ok]
    cases h2 : checkComponent d "P" with
    | error e2 =>
      refine ⟨fun e d2 h => ?_, fun d3 h => ?_⟩ <;>
        simp only [exceptMapError_err, exceptBind_err] at h
      · rw [Except.error.injEq, Prod.mk.injEq] at h
        exact h.2.symm
      · exact nomatch h
    | ok q2 =>
      rw [exceptMapError_ok, exceptBind_ok]
      cases h3 : checkComponent d "K" with
      | error e3 =>
        refine ⟨fun e d2 h => ?_, fun d3 h => ?_⟩ <;>
          simp only [exceptMapError_err, exceptBind_err] at h
        · rw [Except.error.injEq, Prod.mk.injEq] at h
          exact h.2.symm
        · exact nomatch h
      | ok q3 =>
        rw [exceptMapError_ok, exceptBind_ok]
        cases h4 : checkCoefficient "n_coefficient" nc with
        | error e4 =>
          refine ⟨fun e d2 h => ?_, fun d3 h => ?_⟩ <;>
            simp only [exceptMapError_err, exceptBind_err] at h
          · rw [Except.error.injEq, Prod.mk.injEq] at h
            exact h.2.symm
          · exact nomatch h
        | ok q4 =>
          rw [exceptMapError_ok, exceptBind_ok]
          cases h5 : checkCoefficient "p_coefficient" pc with
          | error e5 =>
            refine ⟨fun e d2 h => ?_, fun d3 h => ?_⟩ <;>
              simp only [exceptMapError_err, exceptBind_err] at h
            · rw [Except.error.injEq, Prod.mk.injEq] at h
              exact h.2.symm
            · exact nomatch h
          | ok q5 =>
            rw [exceptMapError_ok, exceptBind_ok]
            cases h6 : checkCoefficient "k_coefficient" kc with
            | error e6 =>
              refine ⟨fun e d2 h => ?_, fun d3 h => ?_⟩ <;>
                simp only [exceptMapError_err, exceptBind_err] at h
              · rw [Except.error.injEq, Prod.mk.injEq] at h
                exact h.2.symm
              · exact nomatch h
            | ok q6 =>
              rw [exceptMapError_ok, exceptBind_ok]
              constructor
              · intro e d2 h
                exact nomatch h
              · intro d3 h
                exact ⟨⟨q1, rfl⟩, ⟨q2, rfl⟩, ⟨q3, rfl⟩, ⟨q4, rfl⟩, ⟨q5, rfl⟩, ⟨q6, rfl⟩⟩

theorem C9_validation_before_mutation_witness :
    ([("P", PyVal.decVal 1), ("K", PyVal.decVal 2)] : Dict) =
      [("P", PyVal.decVal 1), ("K", PyVal.decVal 2)] :=
  (C9_validation_before_mutation [("P", PyVal.decVal 1), ("K", PyVal.decVal 2)]
    (.decVal (5/10)) (.decVal (2/10)) (.decVal (4/10))).1
    (.missingKey "N") [("P", PyVal.decVal 1), ("K", PyVal.decVal 2)] rfl

/-- Looking up a key other than the one written is unaffected by `dset`. -/
theorem dget_dset_ne (k1 k2 : String) (v : PyVal) (h : k1 ≠ k2) :
    ∀ d : Dict, dget (dset d k2 v) k1 = dget d k1 := by
  intro d
  induction d with
  | nil => rfl
  | cons hd tl ih =>
    obtain ⟨k0, v0⟩ := hd
    by_cases hk : k0 = k2
    · rw [show dset ((k0, v0) :: tl) k2 v = (k2, v) :: dset tl k2 v by
        simp only [dset, if_pos hk]]
      rw [show dget ((k2, v) :: dset tl k2 v) k1 = dget (dset tl k2 v) k1 by
        simp only [dget, if_neg (Ne.symm h)]]
      rw [show dget ((k0, v0) :: tl) k1 = dget tl k1 by
        simp only [dget, if_neg (hk ▸ Ne.symm h)]]
      exact ih
    · rw [show dset ((k0, v0) :: tl) k2 v = (k0, v0) :: dset tl k2 v by
        simp only [dset, if_neg hk]]
      by_cases hk1 : k0 = k1
      · rw [show dget ((k0, v0) :: dset tl k2 v) k1 = some v0 by
          simp only [dget, if_pos hk1]]
        rw [show dget ((k0, v0) :: tl) k1 = some v0 by simp only [dget, if_pos hk1]]
      · rw [show dget ((k0, v0) :: dset tl k2 v) k1 = dget (dset tl k2 v) k1 by
          simp only [dget, if_neg hk1]]
        rw [show dget ((k0, v0) :: tl) k1 = dget tl k1 by simp only [dget, if_neg hk1]]
        exact ih

/-- Writing a present key makes lookup return the written value. -/
theorem dget_dset_self (k : String) (v w : PyVal) :
    ∀ d : Dict, dget d k = some w → dget (dset d k v) k = some v := by
  intro d
  induction d with
  | nil => intro h; exact nomatch h
  | cons hd tl ih =>
    obtain ⟨k0, v0⟩ := hd
    intro h
    by_cases hk : k0 = k
    · rw [show dset ((k0, v0) :: tl) k v = (k, v) :: dset tl k v by
        simp only [dset, if_pos hk]]
      simp [dget]
    · rw [show dset ((k0, v0) :: tl) k v = (k0, v0) :: dset tl k v by
        simp only [dset, if_neg hk]]
      simp only [dget, if_neg hk] at h ⊢
      exact ih h

/-- C10: `apply_nano_coefficients` accepts a mapping with keys beyond N, P, K
(it only requires those three to be present with non-negative Decimal values)
and, with in-range Decimal coefficients, succeeds; the returned mapping holds
the three discounted, half-up rounded masses at N, P, K and is unchanged at
every other key. -/
theorem C10_extra_keys_frame (d : Dict) (ncq pcq kcq qn qp qk : ℚ)
    (hN : dget d "N" = some (.decVal qn)) (hqn : 0 ≤ qn)
    (hP : dget d "P" = some (.decVal qp)) (hqp : 0 ≤ qp)
    (hK : dget d "K" = some (.decVal qk)) (hqk : 0 ≤ qk)
    (hnc1 : 0 ≤ ncq) (hnc2 : ncq ≤ 1) (hpc1 : 0 ≤ pcq) (hpc2 : pcq ≤ 1)
    (hkc1 : 0 ≤ kcq) (hkc2 : kcq ≤ 1) :
    ∃ d3 : Dict,
      apply_nano_coefficients d (.decVal ncq) (.decVal pcq) (.decVal kcq) = .ok d3 ∧
      dget d3 "N" = some (.decVal (halfUp2 (qn * ncq))) ∧
      dget d3 "P" = some (.decVal (halfUp2 (qp * pcq))) ∧
      dget d3 "K" = some (.decVal (halfUp2 (qk * kcq))) ∧
      ∀ key : String, key ≠ "N" → key ≠ "P" → key ≠ "K" →
        dget d3 key = dget d key := by
  have hc1 : checkComponent d "N" = .ok qn := by
    simp only [checkComponent, hN]
    rw [if_neg (not_lt.mpr hqn)]
  have hc2 : checkComponent d "P" = .ok qp := by
    simp only [checkComponent, hP]
    rw [if_neg (not_lt.mpr hqp)]
  have hc3 : checkComponent d "K" = .ok qk := by
    simp only [checkComponent, hK]
    rw [if_neg (not_lt.mpr hqk)]
  have hc4 : checkCoefficient "n_coefficient" (.decVal ncq) = .ok ncq := by
    simp only [checkCoefficient]
    rw [if_neg (not_not_intro ⟨hnc1, hnc2⟩)]
  have hc5 : checkCoefficient "p_coefficient" (.decVal pcq) = .ok pcq := by
    simp only [checkCoefficient]
    rw [if_neg (not_not_intro ⟨hpc1, hpc2⟩)]
  have hc6 : checkCoefficient "k_coefficient" (.decVal kcq) = .ok kcq := by
    simp only [checkCoefficient]
    rw [if_neg (not_not_intro ⟨hkc1, hkc2⟩)]
  refine ⟨dset (dset (dset d "N" (.decVal (halfUp2 (qn * ncq)))) "P"
      (.decVal (halfUp2 (qp * pcq)))) "K" (.decVal (halfUp2 (qk * kcq))),
    ?_, ?_, ?_, ?_, ?_⟩
  · unfold apply_nano_coefficients
    rw [hc1, hc2, hc3, hc4, hc5, hc6]
    rfl
  · rw [dget_dset_ne "N" "K" _ (by simp),
      dget_dset_ne "N" "P" _ (by simp)]
    exact dget_dset_self "N" _ _ d hN
  · rw [dget_dset_ne "P" "K" _ (by simp)]
    exact dget_dset_self "P" _ _ _ (by rw [dget_dset_ne "P" "N" _ (by simp)]; exact hP)
  · exact dget_dset_self "K" _ _ _
      (by rw [dget_dset_ne "K" "P" _ (by simp), dget_dset_ne "K" "N" _ (by simp)]; exact hK)
  · intro key hN2 hP2 hK2
    rw [dget_dset_ne key "K" _ hK2, dget_dset_ne key "P" _ hP2,
      dget_dset_ne key "N" _ hN2]

theorem C10_extra_keys_frame_witness :
    ∃ d3 : Dict,
      apply_nano_coefficients
        [("N", PyVal.decVal 100), ("P", PyVal.decVal 50), ("K", PyVal.decVal 150),
          ("Mg", PyVal.decVal 7)]
        (.decVal (5/10)) (.decVal (2/10)) (.decVal (4/10)) = .ok d3 ∧
      dget d3 "N" = some (.decVal (halfUp2 (100 * (5/10)))) ∧
      dget d3 "P" = some (.decVal (halfUp2 (50 * (2/10)))) ∧
      dget d3 "K" = some (.decVal (halfUp2 (150 * (4/10)))) ∧
      ∀ key : String, key ≠ "N" → key ≠ "P" → key ≠ "K" →
        dget d3 key =
          dget [("N", PyVal.decVal 100), ("P", PyVal.decVal 50), ("K", PyVal.decVal 150),
            ("Mg", PyVal.decVal 7)] key :=
  C10_extra_keys_frame
    [("N", PyVal.decVal 100), ("P", PyVal.decVal 50), ("K", PyVal.decVal 150),
      ("Mg", PyVal.decVal 7)]
    (5/10) (2/10) (4/10) 100 50 150
    (by simp [dget]) (by norm_num) (by simp [dget]) (by norm_num)
    (by simp [dget]) (by norm_num) (by norm_num) (by norm_num) (by norm_num)
    (by norm_num) (by norm_num) (by norm_num)

end NanoMixer
